import Mathlib

/-!
# Verification of the Financial Document Analyzer service

Shallow embedding of the repository's Python sources (`tools.py`, `worker.py`,
`main.py`, `task.py`, `database.py`, `celery_app.py`) and proofs about them.
Strings are modelled as `List Char` in the core functions, wrapped into
Lean `String`s at the interface where convenient.
-/

namespace FinDoc

/-! ## tools.py — FinancialDocumentTool._run

The Python source, for reference:

    async def _run(self, path: str = "data/sample.pdf") -> str:
        if not os.path.exists(path):
            return f"ERROR: File not found at path: \x7bpath\x7d"
        full_report = ""
        try:
            with pdfplumber.open(path) as pdf:
                for page in pdf.pages:
                    text = page.extract_text() or ""
                    while "\n\n" in text:
                        text = text.replace("\n\n", "\n")
                    full_report += text + "\n"
            if not full_report.strip():
                return "WARNING: No readable text found in the PDF."
            return full_report
        except Exception as e:
            return f"ERROR: Failed to read PDF. Details: \x7bstr(e)\x7d"
-/

/-- `Char` predicate for the newline character. -/
def isNL (c : Char) : Bool := c = '\n'

/-- One pass of Python's `text.replace("\n\n", "\n")`: scan left to right,
replacing non-overlapping occurrences of two newlines by one. -/
def pyReplaceNN : List Char → List Char
  | [] => []
  | [c] => [c]
  | c :: d :: rest =>
    if c = '\n' ∧ d = '\n' then '\n' :: pyReplaceNN rest
    else c :: pyReplaceNN (d :: rest)

/-- Python's `"\n\n" in text`: does the list contain two adjacent newlines? -/
def hasNN : List Char → Bool
  | [] => false
  | [_] => false
  | c :: d :: rest => (c = '\n' && d = '\n') || hasNN (d :: rest)

theorem pyReplaceNN_length_le : ∀ l : List Char, (pyReplaceNN l).length ≤ l.length := by
  intro l
  induction l using pyReplaceNN.induct with
  | case1 => simp [pyReplaceNN]
  | case2 c => simp [pyReplaceNN]
  | case3 c d rest h ih => simp only [pyReplaceNN, if_pos h, List.length_cons]; omega
  | case4 c d rest h ih =>
    simp only [pyReplaceNN, if_neg h, List.length_cons]
    simpa using Nat.succ_le_succ ih

theorem pyReplaceNN_length_lt : ∀ l : List Char, hasNN l = true →
    (pyReplaceNN l).length < l.length := by
  intro l
  induction l using pyReplaceNN.induct with
  | case1 => intro h; simp [hasNN] at h
  | case2 c => intro h; simp [hasNN] at h
  | case3 c d rest h ih =>
    intro _
    have := pyReplaceNN_length_le rest
    simp only [pyReplaceNN, if_pos h, List.length_cons]
    omega
  | case4 c d rest h ih =>
    intro hn
    have hrest : hasNN (d :: rest) = true := by
      have : ¬(c = '\n' && d = '\n') = true := by
        simp only [Bool.and_eq_true, decide_eq_true_eq]
        exact h
      simpa [hasNN, this] using hn
    have hlt := ih hrest
    simp only [List.length_cons] at hlt
    simp only [pyReplaceNN, if_neg h, List.length_cons]
    omega

/-- The `while "\n\n" in text` loop of `_run`: repeatedly apply the
replacement until no adjacent newline pair remains. -/
def collapseLoop (l : List Char) : List Char :=
  if h : hasNN l = true then collapseLoop (pyReplaceNN l) else l
termination_by l.length
decreasing_by exact pyReplaceNN_length_lt l h

/-- Specification-level normal form: every maximal run of newline characters
becomes a single newline. Used to characterise `collapseLoop`. -/
def collapseRuns : List Char → List Char
  | [] => []
  | c :: rest =>
    if c = '\n' then '\n' :: collapseRuns (rest.dropWhile isNL)
    else c :: collapseRuns rest
termination_by l => l.length
decreasing_by
  · exact Nat.lt_succ_of_le (List.dropWhile_sublist _).length_le
  · exact Nat.lt_succ_self _

theorem pyReplaceNN_nilEq : pyReplaceNN [] = [] := rfl

theorem pyReplaceNN_singleEq (c : Char) : pyReplaceNN [c] = [c] := rfl

theorem pyReplaceNN_nlnlEq (rest : List Char) :
    pyReplaceNN ('\n' :: '\n' :: rest) = '\n' :: pyReplaceNN rest := by
  simp [pyReplaceNN]

theorem pyReplaceNN_pairNeEq (c d : Char) (rest : List Char)
    (h : ¬(c = '\n' ∧ d = '\n')) :
    pyReplaceNN (c :: d :: rest) = c :: pyReplaceNN (d :: rest) := by
  rw [pyReplaceNN, if_neg h]

theorem collapseRuns_nil : collapseRuns [] = [] := by
  rw [collapseRuns]

theorem collapseRuns_cons_nl (rest : List Char) :
    collapseRuns ('\n' :: rest) = '\n' :: collapseRuns (rest.dropWhile isNL) := by
  rw [collapseRuns]
  simp

theorem collapseRuns_cons_ne (c : Char) (rest : List Char) (h : ¬c = '\n') :
    collapseRuns (c :: rest) = c :: collapseRuns rest := by
  rw [collapseRuns]
  simp [h]

theorem dropWhile_isNL_cons_ne (c : Char) (rest : List Char) (h : ¬c = '\n') :
    (c :: rest).dropWhile isNL = c :: rest := by
  simp [List.dropWhile, isNL, h]

theorem dropWhile_isNL_cons_nl (rest : List Char) :
    ('\n' :: rest).dropWhile isNL = rest.dropWhile isNL := by
  simp [List.dropWhile, isNL]

/-- `dropWhile isNL` commutes with one replacement pass: a leading run of `k`
newlines shrinks to `⌈k/2⌉` newlines, so dropping it before or after the
pass gives the same list. -/
theorem dropWhile_pyReplaceNN : ∀ l : List Char,
    (pyReplaceNN l).dropWhile isNL = pyReplaceNN (l.dropWhile isNL) := by
  intro l
  induction l using pyReplaceNN.induct with
  | case1 => rfl
  | case2 c =>
    by_cases hc : c = '\n'
    · subst hc; rfl
    · simp [pyReplaceNN, dropWhile_isNL_cons_ne c [] hc]
  | case3 c d rest h ih =>
    obtain ⟨hc, hd⟩ := h
    subst hc; subst hd
    rw [pyReplaceNN_nlnlEq]
    rw [dropWhile_isNL_cons_nl, dropWhile_isNL_cons_nl, dropWhile_isNL_cons_nl, ih]
  | case4 c d rest h ih =>
    rw [pyReplaceNN_pairNeEq c d rest h]
    by_cases hc : c = '\n'
    · subst hc
      have hd : ¬d = '\n' := fun hd => h ⟨rfl, hd⟩
      rw [dropWhile_isNL_cons_nl, dropWhile_isNL_cons_nl, ih,
        dropWhile_isNL_cons_ne d rest hd]
    · rw [dropWhile_isNL_cons_ne c _ hc, dropWhile_isNL_cons_ne c _ hc,
        pyReplaceNN_pairNeEq c d rest h]

/-- One replacement pass does not change the run-collapsed normal form. -/
theorem collapseRuns_pyReplaceNN : ∀ (n : Nat) (l : List Char), l.length ≤ n →
    collapseRuns (pyReplaceNN l) = collapseRuns l := by
  intro n
  induction n with
  | zero =>
    intro l hlen
    have : l = [] := List.length_eq_zero.mp (Nat.le_zero.mp hlen)
    subst this; rfl
  | succ n ih =>
    intro l hlen
    match l with
    | [] => rfl
    | [c] => rfl
    | c :: d :: rest =>
      by_cases hc : c = '\n'
      · subst hc
        by_cases hd : d = '\n'
        · subst hd
          rw [pyReplaceNN_nlnlEq]
          rw [collapseRuns_cons_nl, collapseRuns_cons_nl, dropWhile_pyReplaceNN,
            dropWhile_isNL_cons_nl]
          have hdrop : (rest.dropWhile isNL).length ≤ n := by
            have h1 : (rest.dropWhile isNL).length ≤ rest.length :=
              (List.dropWhile_sublist _).length_le
            simp only [List.length_cons] at hlen
            omega
          rw [ih _ hdrop]
        · have hpair : ¬('\n' = '\n' ∧ d = '\n') := fun hp => hd hp.2
          rw [pyReplaceNN_pairNeEq _ d rest hpair]
          rw [collapseRuns_cons_nl, collapseRuns_cons_nl, dropWhile_pyReplaceNN,
            dropWhile_isNL_cons_ne d rest hd]
          have hlen2 : (d :: rest).length ≤ n := by
            simp only [List.length_cons] at hlen ⊢; omega
          rw [ih _ hlen2]
      · have hpair : ¬(c = '\n' ∧ d = '\n') := fun hp => hc hp.1
        rw [pyReplaceNN_pairNeEq c d rest hpair]
        rw [collapseRuns_cons_ne c _ hc, collapseRuns_cons_ne c _ hc]
        have hlen2 : (d :: rest).length ≤ n := by
          simp only [List.length_cons] at hlen ⊢; omega
        rw [ih _ hlen2]

/-- A list with no adjacent newline pair is already in normal form. -/
theorem collapseRuns_of_not_hasNN : ∀ l : List Char, hasNN l = false →
    collapseRuns l = l := by
  intro l
  induction l using hasNN.induct with
  | case1 => intro _; exact collapseRuns_nil
  | case2 c =>
    intro _
    by_cases hc : c = '\n'
    · subst hc; rw [collapseRuns_cons_nl, List.dropWhile_nil, collapseRuns_nil]
    · rw [collapseRuns_cons_ne c [] hc, collapseRuns_nil]
  | case3 c d rest ih =>
    intro hfalse
    simp only [hasNN, Bool.or_eq_false_iff, Bool.and_eq_false_iff] at hfalse
    obtain ⟨hpair, htail⟩ := hfalse
    have ihd : collapseRuns (d :: rest) = d :: rest := by
      apply ih
      simpa [hasNN] using htail
    by_cases hc : c = '\n'
    · subst hc
      have hd : ¬d = '\n' := by
        rcases hpair with h1 | h2
        · simp at h1
        · simpa using h2
      rw [collapseRuns_cons_nl, dropWhile_isNL_cons_ne d rest hd, ihd]
    · rw [collapseRuns_cons_ne c _ hc, ihd]

/-- The `while` loop of `_run` computes exactly the run-collapsed normal
form: every maximal run of newlines becomes a single newline. -/
theorem collapseLoop_eq_collapseRuns : ∀ l : List Char,
    collapseLoop l = collapseRuns l := by
  have main : ∀ (n : Nat) (l : List Char), l.length ≤ n →
      collapseLoop l = collapseRuns l := by
    intro n
    induction n with
    | zero =>
      intro l hlen
      have : l = [] := List.length_eq_zero.mp (Nat.le_zero.mp hlen)
      subst this
      rw [collapseLoop, dif_neg (by simp [hasNN]), collapseRuns_nil]
    | succ n ih =>
      intro l hlen
      rw [collapseLoop]
      by_cases h : hasNN l = true
      · rw [dif_pos h]
        have hlt := pyReplaceNN_length_lt l h
        have : (pyReplaceNN l).length ≤ n := by omega
        rw [ih _ this, collapseRuns_pyReplaceNN (Nat.succ n) l hlen]
      · rw [dif_neg h]
        exact (collapseRuns_of_not_hasNN l (Bool.eq_false_iff.mpr h)).symm
  intro l
  exact main l.length l (Nat.le_refl _)

/-- Structural (kernel-computable) form of the run-collapsing normal form:
`prevNL` records whether the previous character was a newline already
emitted for the current run. -/
def collapseRunsAux (prevNL : Bool) : List Char → List Char
  | [] => []
  | c :: rest =>
    if c = '\n' then
      if prevNL then collapseRunsAux true rest
      else '\n' :: collapseRunsAux true rest
    else c :: collapseRunsAux false rest

theorem collapseRunsAux_true (l : List Char) :
    collapseRunsAux true l = collapseRunsAux false (l.dropWhile isNL) := by
  induction l with
  | nil => rfl
  | cons c rest ih =>
    by_cases hc : c = '\n'
    · subst hc
      simp only [collapseRunsAux, if_pos rfl, if_pos trivial, dropWhile_isNL_cons_nl]
      exact ih
    · simp only [collapseRunsAux, if_neg hc, dropWhile_isNL_cons_ne c rest hc]

theorem collapseRuns_eq_aux : ∀ l : List Char,
    collapseRuns l = collapseRunsAux false l := by
  have main : ∀ (n : Nat) (l : List Char), l.length ≤ n →
      collapseRuns l = collapseRunsAux false l := by
    intro n
    induction n with
    | zero =>
      intro l hlen
      have : l = [] := List.length_eq_zero.mp (Nat.le_zero.mp hlen)
      subst this
      rw [collapseRuns_nil]
      rfl
    | succ n ih =>
      intro l hlen
      match l with
      | [] => rw [collapseRuns_nil]; rfl
      | c :: rest =>
        by_cases hc : c = '\n'
        · subst hc
          have hdrop : (rest.dropWhile isNL).length ≤ n := by
            have := (List.dropWhile_sublist (l := rest) isNL).length_le
            simp only [List.length_cons] at hlen
            omega
          rw [collapseRuns_cons_nl, ih _ hdrop]
          simp [collapseRunsAux, collapseRunsAux_true]
        · have hrest : rest.length ≤ n := by
            simp only [List.length_cons] at hlen
            omega
          rw [collapseRuns_cons_ne c rest hc, ih _ hrest]
          simp [collapseRunsAux, hc]
  intro l
  exact main l.length l (Nat.le_refl _)

/-- Kernel-computable characterisation of the `while` loop. -/
theorem collapseLoop_eq_aux (l : List Char) :
    collapseLoop l = collapseRunsAux false l :=
  (collapseLoop_eq_collapseRuns l).trans (collapseRuns_eq_aux l)

/-- Python's `not s.strip()`: true iff every character is whitespace
(so the stripped string is empty). -/
def pyIsBlank (l : List Char) : Bool := l.all (fun c => c.isWhitespace)

/-- Body of the page loop in `_run`:
`text = page.extract_text() or ""`, the `while` collapse loop, then
`full_report += text + "\n"`. A page whose `extract_text()` returns `None`
is modelled as `none`. -/
def pageStep (acc : List Char) (p : Option (List Char)) : List Char :=
  acc ++ collapseLoop (p.getD []) ++ ['\n']

/-- The whole page loop: `full_report` accumulated over the pages in order. -/
def extractConcat (pages : List (Option (List Char))) : List Char :=
  pages.foldl pageStep []

/-- `full_report` is the concatenation, in page order, of each page's
run-collapsed text followed by one newline. -/
theorem extractConcat_go : ∀ (pages : List (Option (List Char))) (acc : List Char),
    pages.foldl pageStep acc =
      acc ++ (pages.map (fun p => collapseRuns (p.getD []) ++ ['\n'])).flatten := by
  intro pages
  induction pages with
  | nil => intro acc; simp
  | cons p ps ih =>
    intro acc
    simp only [List.foldl_cons, List.map_cons, List.flatten_cons]
    rw [ih, pageStep, collapseLoop_eq_collapseRuns]
    simp [List.append_assoc]

theorem extractConcat_eq (pages : List (Option (List Char))) :
    extractConcat pages =
      (pages.map (fun p => collapseRuns (p.getD []) ++ ['\n'])).flatten := by
  rw [extractConcat, extractConcat_go]
  simp

/-- With at least one page, `full_report` ends in a newline. -/
theorem extractConcat_ends_newline : ∀ (pages : List (Option (List Char))),
    pages ≠ [] → ∃ init, extractConcat pages = init ++ ['\n'] := by
  intro pages
  induction pages with
  | nil => intro h; exact absurd rfl h
  | cons p ps ih =>
    intro _
    rw [extractConcat_eq]
    cases ps with
    | nil => exact ⟨collapseRuns (p.getD []), by simp⟩
    | cons q qs =>
      obtain ⟨init, hinit⟩ := ih (by simp)
      rw [extractConcat_eq] at hinit
      refine ⟨collapseRuns (p.getD []) ++ '\n' :: init, ?_⟩
      simp only [List.map_cons, List.flatten_cons] at hinit ⊢
      rw [hinit]
      simp

theorem pyIsBlank_false_iff (l : List Char) :
    pyIsBlank l = false ↔ ∃ c ∈ l, ¬c.isWhitespace := by
  simp [pyIsBlank]

/-- Outcome of `pdfplumber.open(path)` and the page iteration: either the
list of pages (each page's `extract_text()` result), or an exception whose
`str(e)` is `msg`. -/
inductive PdfOutcome where
  | ok (pages : List (Option (List Char)))
  | exn (msg : List Char)

/-- The file system / PDF library environment observed by `_run`. -/
structure FsEnv where
  pathExists : Bool
  pdf : PdfOutcome

/-- The default of `_run`'s `path` parameter in `tools.py`. -/
def FinancialDocumentTool_defaultPath : List Char := "data/sample.pdf".data

/-- `FinancialDocumentTool._run` from `tools.py`. Total by construction:
every branch returns a string; Python exceptions from the PDF library are
part of `env` and are caught by the `try/except`. -/
def FinancialDocumentTool_run (path : List Char) (env : FsEnv) : List Char :=
  if !env.pathExists then
    "ERROR: File not found at path: ".data ++ path
  else
    match env.pdf with
    | .exn e => "ERROR: Failed to read PDF. Details: ".data ++ e
    | .ok pages =>
      let full_report := extractConcat pages
      if pyIsBlank full_report then
        "WARNING: No readable text found in the PDF.".data
      else
        full_report

/-- `_run` invoked without a `path` argument: Python substitutes the
declared default `"data/sample.pdf"`. -/
def FinancialDocumentTool_run_noArg (env : FsEnv) : List Char :=
  FinancialDocumentTool_run FinancialDocumentTool_defaultPath env

/-! ## database.py and worker.py -/

/-- A row of the `analysis_results` table (`database.AnalysisResult`):
`id` and `created_at` are DB-generated and not modelled. -/
structure AnalysisResult where
  filename : List Char
  query : List Char
  result : List Char
deriving DecidableEq

/-- Outcome of `financial_crew.kickoff(...)` as observed by
`process_document`: the crew output (whose `str(...)` is `resultStr`), or an
exception. -/
inductive KickoffOutcome where
  | ok (resultStr : List Char)
  | exn (msg : List Char)

/-- Outcome of the `db.add(record); db.commit()` write. -/
inductive CommitOutcome where
  | ok
  | exn (msg : List Char)

/-- The environment one run of `process_document` observes. -/
structure WorkerEnv where
  kickoff : KickoffOutcome
  commit : CommitOutcome

/-- `worker.process_document`: run the crew, build the `AnalysisResult`
record, `db.add` + `db.commit` it, return `str(result)`. There is no
`try/except` in the source, so an exception from either the kickoff or the
commit propagates (`.error`), failing the Celery task; an uncommitted `add`
is not durable, so on either failure the persisted table is unchanged. The
result is the pair (table state after the run, task outcome). -/
def process_document (file_path query : List Char) (env : WorkerEnv)
    (db : List AnalysisResult) :
    List AnalysisResult × Except (List Char) (List Char) :=
  match env.kickoff with
  | .exn e => (db, .error e)
  | .ok resultStr =>
    match env.commit with
    | .exn e => (db, .error e)
    | .ok => (db ++ [⟨file_path, query, resultStr⟩], .ok resultStr)

/-! ## main.py — status endpoint -/

/-- JSON values, as much as the endpoints of `main.py` produce. -/
inductive Json where
  | str (s : List Char)
  | obj (fields : List (List Char × Json))

/-- The view of one Celery task in the result backend: its state label and
the stringified stored result (`str(task_result.result)`; for a `SUCCESS`
of `process_document` the stored result is already a string, so the raw
result and its `str` coincide). -/
structure TaskView where
  state : List Char
  resultStr : List Char
deriving DecidableEq

/-- Modelled from the spec: Celery's `AsyncResult(task_id)` (the task-queue
library is not part of this repository) reports state `"PENDING"` for a
`task_id` with no entry in the result backend — unknown ids are
indistinguishable from not-yet-started ones. -/
def asyncResult (backend : List (List Char × TaskView)) (task_id : List Char) :
    TaskView :=
  match backend.lookup task_id with
  | some v => v
  | none => { state := "PENDING".data, resultStr := "None".data }

/-- `main.get_status`: map the Celery task state to the response JSON. -/
def get_status (backend : List (List Char × TaskView)) (task_id : List Char) :
    Json :=
  let task_result := asyncResult backend task_id
  if task_result.state = "PENDING".data then
    .obj [("status".data, .str "pending".data)]
  else if task_result.state = "SUCCESS".data then
    .obj [("status".data, .str "completed".data),
          ("result".data, .str task_result.resultStr)]
  else if task_result.state = "FAILURE".data then
    .obj [("status".data, .str "failed".data),
          ("error".data, .str task_result.resultStr)]
  else
    .obj [("status".data, .str task_result.state)]

/-! ## main.py — upload endpoint -/

/-- Python `str.rfind(c)` on a character: the highest index at which `c`
occurs, or `-1` if it does not occur. -/
def pyRfind (c : Char) : List Char → Int
  | [] => -1
  | d :: rest =>
    let r := pyRfind c rest
    if r ≥ 0 then r + 1
    else if d = c then 0 else -1

/-- `os.path.splitext` (posix `sep = '/'`, `extsep = '.'`): split at the
last dot if it lies after the last path separator and some character of the
basename before it is not a dot (so leading dots of the basename never start
an extension). -/
def splitext (p : List Char) : List Char × List Char :=
  let sepIndex := pyRfind '/' p
  let dotIndex := pyRfind '.' p
  if dotIndex > sepIndex ∧
      ((List.range p.length).any fun k =>
        decide (sepIndex < (k : Int)) && decide ((k : Int) < dotIndex) &&
        decide (¬p.getD k '.' = '.')) then
    (p.take dotIndex.toNat, p.drop dotIndex.toNat)
  else
    (p, [])

/-- `os.path.join` for two posix path components. -/
def posixJoin (a b : List Char) : List Char :=
  if b.head? = some '/' then b
  else if a = [] ∨ a.getLast? = some '/' then a ++ b
  else a ++ '/' :: b

/-- `main.UPLOAD_DIR`. -/
def UPLOAD_DIR : List Char := "data".data

/-- Outcome of `upload_file.read()` plus the `open`/`write` of the upload. -/
inductive SaveOutcome where
  | ok
  | exn (msg : List Char)

/-- The environment one `/analyze` request observes: the generated
`str(uuid.uuid4())`, the file-save outcome, and the outcome of
`process_document.delay` (a task id, or an exception). -/
structure AnalyzeEnv where
  file_id : List Char
  save : SaveOutcome
  submit : Except (List Char) (List Char)

/-- `main.save_upload_file`: compute `data/<file_id><ext>` with `ext` the
`splitext` extension of the client filename, write the bytes there, and
return the path; any exception becomes `HTTPException(500, "File save
failed: " + str(e))`, modelled as `.error (500, …)`. -/
def save_upload_file (filename : List Char) (env : AnalyzeEnv) :
    Except (Nat × List Char) (List Char) :=
  match env.save with
  | .exn e => .error (500, "File save failed: ".data ++ e)
  | .ok =>
    let file_extension := (splitext filename).2
    .ok (posixJoin UPLOAD_DIR (env.file_id ++ file_extension))

/-- Modelled from the spec: `str()` of the `HTTPException` raised inside
`save_upload_file` when it reaches `analyze_document`'s generic
`except Exception` handler (the HTTP framework is not part of this
repository); it surfaces the status code and the detail message. -/
def strOfHTTPException (code : Nat) (detail : List Char) : List Char :=
  (toString code).data ++ ": ".data ++ detail

/-- `main.analyze_document` (`POST /analyze`): save the upload, submit the
Celery job, return the processing response; any exception is converted to
`HTTPException(500, str(e))`, modelled as `.error (500, …)`. -/
def analyze_document (filename query : List Char) (env : AnalyzeEnv) :
    Except (Nat × List Char) Json :=
  match save_upload_file filename env with
  | .error (code, detail) => .error (500, strOfHTTPException code detail)
  | .ok file_path =>
    match env.submit with
    | .error e => .error (500, e)
    | .ok task_id =>
      .ok (.obj [("status".data, .str "processing".data),
                 ("task_id".data, .str task_id),
                 ("message".data, .str "Analysis started in background".data),
                 ("file_path".data, .str file_path)])

/-! ## task.py and the crew of worker.py -/

/-- A CrewAI task as configured in `task.py` (agent and prompt text are kept
only as data; they do not influence the claims below beyond identity). -/
structure CrewTask where
  description : List Char
  expected_output : List Char
  agentRole : List Char
  async_execution : Bool
deriving DecidableEq

/-- `task.analyze_financial_document` (stage 1). -/
def analyze_financial_document : CrewTask where
  description :=
    ("Use the financial_document_reader tool to read the PDF at {path}.\n\n" ++
     "STRICT INSTRUCTIONS:\n" ++
     "- Base your answer ONLY on the document\n" ++
     "You MUST use the financial_document_reader tool before answering\n" ++
     "- Do NOT assume missing data\n" ++
     "- If information is missing, say 'Not found in document'\n" ++
     "- Quote exact numbers when available\n\n" ++
     "Then answer the user's query: {query}.\n\n" ++
     "Output must include:\n" ++
     "1. Key financial metrics (with values)\n" ++
     "2. Risks (document-backed only)\n" ++
     "3. Opportunities (document-backed only)\n" ++
     "4. Final summary").data
  expected_output := "Structured financial analysis report.".data
  agentRole := "Senior Financial Analyst".data
  async_execution := false

/-- `task.verify_financial_analysis` (stage 2). -/
def verify_financial_analysis : CrewTask where
  description :=
    "Review the previous financial analysis for accuracy and logical consistency.".data
  expected_output := "Verified and improved financial analysis.".data
  agentRole := "Financial Report Verifier".data
  async_execution := false

/-- The crewai `Process` selector used in `worker.py`. -/
inductive CrewProcess where
  | sequential
  | hierarchical
deriving DecidableEq

/-- `worker.financial_crew`: the crew configuration (agents kept as roles). -/
structure CrewConfig where
  agentRoles : List (List Char)
  tasks : List CrewTask
  process : CrewProcess

def financial_crew : CrewConfig where
  agentRoles := ["Senior Financial Analyst".data, "Financial Report Verifier".data]
  tasks := [analyze_financial_document, verify_financial_analysis]
  process := .sequential

/-- An execution event of a crew run: task `i` (0-based position in the
crew's task list) starts / terminates. -/
inductive CrewEvent where
  | taskStart (i : Nat)
  | taskEnd (i : Nat)
deriving DecidableEq

/-- Modelled from the spec: the execution order of `Crew.kickoff` under
`Process.sequential` with synchronous (`async_execution=False`) tasks — the
crewai library's scheduler is not part of this repository. Tasks run one
after the other in list order, each terminating before the next starts; a
hierarchical process is never configured here and is given no events. -/
def kickoffTrace (crew : CrewConfig) : List CrewEvent :=
  match crew.process with
  | .sequential =>
      (List.range crew.tasks.length).flatMap
        (fun i => [CrewEvent.taskStart i, CrewEvent.taskEnd i])
  | .hierarchical => []

/-! ## Claim-side definitions (refinement comparisons) -/

/-- The normalization claim C2 describes, taken from the spec sentence
"collapsing consecutive blank-line sequences to single blank lines": every
maximal run of two or more newline characters (one or more blank lines) is
replaced by exactly two newlines (a single blank line); lone newlines are
unchanged. `run` counts the pending newline run. -/
def specCollapseBlankAux (run : Nat) : List Char → List Char
  | [] => if run = 0 then [] else if run = 1 then ['\n'] else ['\n', '\n']
  | c :: rest =>
    if c = '\n' then specCollapseBlankAux (run + 1) rest
    else
      (if run = 0 then [] else if run = 1 then ['\n'] else ['\n', '\n']) ++
        c :: specCollapseBlankAux 0 rest

def specCollapseBlankLines (l : List Char) : List Char :=
  specCollapseBlankAux 0 l

/-- The return value claim C2 describes: the normalized page texts
concatenated in page order (with no separator). -/
def specC2Result (pages : List (Option (List Char))) : List Char :=
  (pages.map (fun p => specCollapseBlankLines (p.getD []))).flatten

/-! ## Claim theorems -/

/-- C1: for every task_id, `GET /status/{task_id}` returns exactly one of
four well-formed JSON objects determined by the job's state:
`{status: "pending"}` when the state is PENDING — including when the
task_id is unknown to the backend — `{status: "completed", result}` when
SUCCESS, `{status: "failed", error}` when FAILURE, and
`{status: <raw state label>}` for any other state. -/
theorem claim_C1 (backend : List (List Char × TaskView)) (task_id : List Char) :
    (backend.lookup task_id = none →
      (asyncResult backend task_id).state = "PENDING".data) ∧
    ((asyncResult backend task_id).state = "PENDING".data →
      get_status backend task_id =
        Json.obj [("status".data, Json.str "pending".data)]) ∧
    ((asyncResult backend task_id).state = "SUCCESS".data →
      get_status backend task_id =
        Json.obj [("status".data, Json.str "completed".data),
                  ("result".data, Json.str (asyncResult backend task_id).resultStr)]) ∧
    ((asyncResult backend task_id).state = "FAILURE".data →
      get_status backend task_id =
        Json.obj [("status".data, Json.str "failed".data),
                  ("error".data, Json.str (asyncResult backend task_id).resultStr)]) ∧
    (¬(asyncResult backend task_id).state = "PENDING".data →
      ¬(asyncResult backend task_id).state = "SUCCESS".data →
      ¬(asyncResult backend task_id).state = "FAILURE".data →
      get_status backend task_id =
        Json.obj [("status".data, Json.str (asyncResult backend task_id).state)]) := by
  refine ⟨?_, ?_, ?_, ?_, ?_⟩
  · intro h
    simp [asyncResult, h]
  · intro h
    simp [get_status, h]
  · intro h
    simp [get_status, h,
      show ¬("SUCCESS".data : List Char) = "PENDING".data by decide]
  · intro h
    simp [get_status, h,
      show ¬("FAILURE".data : List Char) = "PENDING".data by decide,
      show ¬("FAILURE".data : List Char) = "SUCCESS".data by decide]
  · intro h1 h2 h3
    simp [get_status, h1, h2, h3]

/-- Witness for C1: an unknown id maps to the pending object, and concrete
SUCCESS / FAILURE / STARTED entries map to their objects. -/
theorem claim_C1_witness :
    get_status [] "nope".data =
      Json.obj [("status".data, Json.str "pending".data)] ∧
    get_status [("t1".data, { state := "SUCCESS".data, resultStr := "report".data })]
        "t1".data =
      Json.obj [("status".data, Json.str "completed".data),
                ("result".data, Json.str "report".data)] ∧
    get_status [("t2".data, { state := "FAILURE".data, resultStr := "boom".data })]
        "t2".data =
      Json.obj [("status".data, Json.str "failed".data),
                ("error".data, Json.str "boom".data)] ∧
    get_status [("t3".data, { state := "STARTED".data, resultStr := "None".data })]
        "t3".data =
      Json.obj [("status".data, Json.str "STARTED".data)] := by
  refine ⟨?_, ?_, ?_, ?_⟩
  · exact (claim_C1 [] "nope".data).2.1 ((claim_C1 [] "nope".data).1 rfl)
  · exact (claim_C1 _ _).2.2.1 (by decide)
  · exact (claim_C1 _ _).2.2.2.1 (by decide)
  · exact (claim_C1 _ _).2.2.2.2 (by decide) (by decide) (by decide)

/-- C3: the extractor is total by construction (a Lean function into
strings; PDF-library exceptions are part of the environment and are
consumed by the `try/except`), and: a missing path yields the not-found
error string; a parse fault is caught and reported as an error string with
the fault's detail, never propagated; blank concatenated text yields the
warning string rather than a hard failure. -/
theorem claim_C3 (path : List Char) (env : FsEnv) :
    (env.pathExists = false →
      FinancialDocumentTool_run path env =
        "ERROR: File not found at path: ".data ++ path) ∧
    (∀ e, env.pathExists = true → env.pdf = PdfOutcome.exn e →
      FinancialDocumentTool_run path env =
        "ERROR: Failed to read PDF. Details: ".data ++ e) ∧
    (∀ pages, env.pathExists = true → env.pdf = PdfOutcome.ok pages →
      pyIsBlank (extractConcat pages) = true →
      FinancialDocumentTool_run path env =
        "WARNING: No readable text found in the PDF.".data) := by
  refine ⟨?_, ?_, ?_⟩
  · intro h
    simp [FinancialDocumentTool_run, h]
  · intro e hp he
    simp [FinancialDocumentTool_run, hp, he]
  · intro pages hp hpg hblank
    simp [FinancialDocumentTool_run, hp, hpg, hblank]

/-- Witness for C3: the three shapes at concrete inputs. -/
theorem claim_C3_witness :
    FinancialDocumentTool_run "missing.pdf".data
        { pathExists := false, pdf := PdfOutcome.ok [] } =
      "ERROR: File not found at path: ".data ++ "missing.pdf".data ∧
    FinancialDocumentTool_run "doc.pdf".data
        { pathExists := true, pdf := PdfOutcome.exn "bad xref".data } =
      "ERROR: Failed to read PDF. Details: ".data ++ "bad xref".data ∧
    FinancialDocumentTool_run "doc.pdf".data
        { pathExists := true, pdf := PdfOutcome.ok [some " ".data, none] } =
      "WARNING: No readable text found in the PDF.".data :=
  ⟨(claim_C3 "missing.pdf".data _).1 rfl,
   (claim_C3 "doc.pdf".data _).2.1 "bad xref".data rfl rfl,
   (claim_C3 "doc.pdf".data _).2.2 [some " ".data, none] rfl rfl (by
      simp only [extractConcat_eq, collapseRuns_eq_aux]
      decide)⟩

/-- C10: invoked without a path argument, the reader tool defaults to the
fixed path `data/sample.pdf` — it reads that file rather than failing or
requiring the job's uploaded file path; when the default file is missing it
returns the not-found string naming `data/sample.pdf`. -/
theorem claim_C10 (env : FsEnv) :
    FinancialDocumentTool_run_noArg env =
      FinancialDocumentTool_run "data/sample.pdf".data env ∧
    (env.pathExists = false →
      FinancialDocumentTool_run_noArg env =
        "ERROR: File not found at path: data/sample.pdf".data) := by
  constructor
  · rfl
  · intro h
    simp [FinancialDocumentTool_run_noArg, FinancialDocumentTool_run,
      FinancialDocumentTool_defaultPath, h]

/-- Witness for C10: with the default file absent the tool returns the
not-found string for `data/sample.pdf`. -/
theorem claim_C10_witness :
    FinancialDocumentTool_run_noArg { pathExists := false, pdf := PdfOutcome.ok [] } =
      "ERROR: File not found at path: data/sample.pdf".data :=
  (claim_C10 { pathExists := false, pdf := PdfOutcome.ok [] }).2 rfl

/-- Counterexample to C2 as stated: for a one-page PDF whose text is
`"a\n\nb"` — a single blank line between two lines, already a single blank
line and hence unchanged by the claimed normalization — the code returns
`"a\nb\n"`: the blank line is removed entirely (the newline run collapses
to one newline, not to one blank line) and a newline is appended per page,
which differs from the claimed `"a\n\nb"`. -/
theorem claim_C2_counterexample :
    FinancialDocumentTool_run "doc.pdf".data
        { pathExists := true, pdf := PdfOutcome.ok [some "a\n\nb".data] } =
      "a\nb\n".data ∧
    specC2Result [some "a\n\nb".data] = "a\n\nb".data ∧
    ¬("a\nb\n".data : List Char) = "a\n\nb".data := by
  refine ⟨?_, by decide, by decide⟩
  simp only [FinancialDocumentTool_run, extractConcat_eq, collapseRuns_eq_aux]
  decide

/-- C2 (amended): for every PDF that opens successfully (and whose
concatenated text is not blank, so the success value is returned), the
extractor normalizes each page's text by collapsing every run of two or
more consecutive newlines to a single newline — eliminating blank lines
within a page — and returns the normalized page texts, each followed by one
appended newline, concatenated in page order. -/
theorem claim_C2_amended (path : List Char) (pages : List (Option (List Char)))
    (h : pyIsBlank (extractConcat pages) = false) :
    FinancialDocumentTool_run path { pathExists := true, pdf := PdfOutcome.ok pages } =
      (pages.map (fun p => collapseRuns (p.getD []) ++ ['\n'])).flatten := by
  have hrun :
      FinancialDocumentTool_run path { pathExists := true, pdf := PdfOutcome.ok pages } =
        extractConcat pages := by
    simp [FinancialDocumentTool_run, h]
  rw [hrun, extractConcat_eq]

/-- Witness for the amended C2 at a concrete two-page PDF. -/
theorem claim_C2_amended_witness :
    pyIsBlank (extractConcat [some "a\n\n\nb".data, none]) = false ∧
    FinancialDocumentTool_run "doc.pdf".data
        { pathExists := true, pdf := PdfOutcome.ok [some "a\n\n\nb".data, none] } =
      ([some "a\n\n\nb".data, none].map
        (fun p => collapseRuns (p.getD []) ++ ['\n'])).flatten := by
  have hb : pyIsBlank (extractConcat [some "a\n\n\nb".data, none]) = false := by
    simp only [extractConcat_eq, collapseRuns_eq_aux]
    decide
  exact ⟨hb, claim_C2_amended "doc.pdf".data _ hb⟩

/-- C8: for every successful extraction (path exists, the PDF opens, and
the concatenated text is not blank) the returned text equals the
concatenation, in page order, of each page's extracted text — a page
yielding no text counting as the empty string — with every run of two or
more consecutive newlines collapsed to a single newline, followed by
exactly one appended newline per page; consequently the result ends with a
newline and contains at least one non-whitespace character. -/
theorem claim_C8 (path : List Char) (pages : List (Option (List Char)))
    (h : pyIsBlank (extractConcat pages) = false) :
    FinancialDocumentTool_run path { pathExists := true, pdf := PdfOutcome.ok pages } =
      (pages.map (fun p => collapseRuns (p.getD []) ++ ['\n'])).flatten ∧
    (∃ init,
      FinancialDocumentTool_run path { pathExists := true, pdf := PdfOutcome.ok pages } =
        init ++ ['\n']) ∧
    (∃ c ∈ FinancialDocumentTool_run path { pathExists := true, pdf := PdfOutcome.ok pages },
      ¬c.isWhitespace) := by
  have hrun :
      FinancialDocumentTool_run path { pathExists := true, pdf := PdfOutcome.ok pages } =
        extractConcat pages := by
    simp [FinancialDocumentTool_run, h]
  have hne : pages ≠ [] := by
    intro hnil
    subst hnil
    simp [extractConcat, pyIsBlank] at h
  refine ⟨hrun.trans (extractConcat_eq pages), ?_, ?_⟩
  · obtain ⟨init, hinit⟩ := extractConcat_ends_newline pages hne
    exact ⟨init, hrun.trans hinit⟩
  · obtain ⟨c, hc, hw⟩ := (pyIsBlank_false_iff _).mp h
    exact ⟨c, by rw [hrun]; exact hc, hw⟩

/-- Witness for C8 at a concrete one-page PDF. -/
theorem claim_C8_witness :
    pyIsBlank (extractConcat [some "Revenue: $100".data]) = false ∧
    FinancialDocumentTool_run "doc.pdf".data
        { pathExists := true, pdf := PdfOutcome.ok [some "Revenue: $100".data] } =
      ([some "Revenue: $100".data].map
        (fun p => collapseRuns (p.getD []) ++ ['\n'])).flatten := by
  have hb : pyIsBlank (extractConcat [some "Revenue: $100".data]) = false := by
    simp only [extractConcat_eq, collapseRuns_eq_aux]
    decide
  exact ⟨hb, (claim_C8 "doc.pdf".data _ hb).1⟩

/-- A successful `process_document` run pins down the whole environment and
the new table state: the crew succeeded with the returned string, the
commit succeeded, and exactly the one record was appended. -/
theorem process_document_ok (file_path query ret : List Char) (env : WorkerEnv)
    (db : List AnalysisResult)
    (h : (process_document file_path query env db).2 = Except.ok ret) :
    env.kickoff = KickoffOutcome.ok ret ∧
    env.commit = CommitOutcome.ok ∧
    (process_document file_path query env db).1 =
      db ++ [{ filename := file_path, query := query, result := ret }] := by
  cases hk : env.kickoff with
  | exn e => simp [process_document, hk] at h
  | ok r =>
    cases hc : env.commit with
    | exn e => simp [process_document, hk, hc] at h
    | ok =>
      have hr : r = ret := by simpa [process_document, hk, hc] using h
      subst hr
      exact ⟨rfl, rfl, by simp [process_document, hk, hc]⟩

/-- A failed `process_document` run leaves the persisted table unchanged. -/
theorem process_document_error (file_path query e : List Char) (env : WorkerEnv)
    (db : List AnalysisResult)
    (h : (process_document file_path query env db).2 = Except.error e) :
    (process_document file_path query env db).1 = db := by
  cases hk : env.kickoff with
  | exn e' => simp [process_document, hk]
  | ok r =>
    cases hc : env.commit with
    | exn e' => simp [process_document, hk, hc]
    | ok => simp [process_document, hk, hc] at h

/-- C4: `process_document` inserts and commits the AnalysisRecord
(filename, query, result text) before returning its success value — the
success value is produced only together with the committed record — and,
because the persistence code is wrapped in no error handler, a fault during
the database write propagates and the job itself fails. -/
theorem claim_C4 (file_path query : List Char) (env : WorkerEnv)
    (db : List AnalysisResult) :
    (∀ ret, (process_document file_path query env db).2 = Except.ok ret →
      env.commit = CommitOutcome.ok ∧
      (process_document file_path query env db).1 =
        db ++ [{ filename := file_path, query := query, result := ret }]) ∧
    (∀ r e, env.kickoff = KickoffOutcome.ok r → env.commit = CommitOutcome.exn e →
      (process_document file_path query env db).2 = Except.error e) := by
  constructor
  · intro ret hok
    obtain ⟨-, hc, hdb⟩ := process_document_ok file_path query ret env db hok
    exact ⟨hc, hdb⟩
  · intro r e hk hc
    simp [process_document, hk, hc]

/-- Witness for C4: a successful run writes the record, and a commit fault
fails the job with the fault's message. -/
theorem claim_C4_witness :
    (process_document "data/u.pdf".data "q".data
        { kickoff := KickoffOutcome.ok "res".data, commit := CommitOutcome.ok } []).1 =
      [] ++ [{ filename := "data/u.pdf".data, query := "q".data,
               result := "res".data : AnalysisResult }] ∧
    (process_document "data/u.pdf".data "q".data
        { kickoff := KickoffOutcome.ok "res".data,
          commit := CommitOutcome.exn "db down".data } []).2 =
      Except.error "db down".data :=
  ⟨((claim_C4 "data/u.pdf".data "q".data
      { kickoff := KickoffOutcome.ok "res".data, commit := CommitOutcome.ok } []).1
      "res".data rfl).2,
   (claim_C4 "data/u.pdf".data "q".data
      { kickoff := KickoffOutcome.ok "res".data,
        commit := CommitOutcome.exn "db down".data } []).2
      "res".data "db down".data rfl rfl⟩

/-- C5: each job creates at most one AnalysisRecord, and only on the
success path — a pipeline failure creates none; every successful run
inserts exactly one new record; re-running with the identical document and
query appends a second independent record, with no deduplication. -/
theorem claim_C5 (file_path query : List Char) (env : WorkerEnv)
    (db : List AnalysisResult) :
    ((process_document file_path query env db).1.length ≤ db.length + 1) ∧
    (∀ e, (process_document file_path query env db).2 = Except.error e →
      (process_document file_path query env db).1 = db) ∧
    (∀ ret, (process_document file_path query env db).2 = Except.ok ret →
      (process_document file_path query env db).1.length = db.length + 1) ∧
    (∀ r, env.kickoff = KickoffOutcome.ok r → env.commit = CommitOutcome.ok →
      (process_document file_path query env
          (process_document file_path query env db).1).1 =
        db ++ [{ filename := file_path, query := query, result := r }]
           ++ [{ filename := file_path, query := query, result := r }]) := by
  refine ⟨?_, ?_, ?_, ?_⟩
  · cases hk : env.kickoff with
    | exn e => simp [process_document, hk]
    | ok r =>
      cases hc : env.commit with
      | exn e => simp [process_document, hk, hc]
      | ok => simp [process_document, hk, hc]
  · intro e he
    exact process_document_error file_path query e env db he
  · intro ret hok
    obtain ⟨-, -, hdb⟩ := process_document_ok file_path query ret env db hok
    simp [hdb]
  · intro r hk hc
    simp [process_document, hk, hc]

/-- Witness for C5: two identical successful runs persist two identical,
independent records. -/
theorem claim_C5_witness :
    (process_document "data/u.pdf".data "q".data
        { kickoff := KickoffOutcome.ok "res".data, commit := CommitOutcome.ok }
        (process_document "data/u.pdf".data "q".data
          { kickoff := KickoffOutcome.ok "res".data, commit := CommitOutcome.ok } []).1).1 =
      [] ++ [{ filename := "data/u.pdf".data, query := "q".data,
               result := "res".data : AnalysisResult }]
         ++ [{ filename := "data/u.pdf".data, query := "q".data,
               result := "res".data : AnalysisResult }] :=
  (claim_C5 "data/u.pdf".data "q".data
    { kickoff := KickoffOutcome.ok "res".data, commit := CommitOutcome.ok } []).2.2.2
    "res".data rfl rfl

/-- Joining onto the upload directory prefixes `data/` whenever the second
component does not start with a separator. -/
theorem posixJoin_data (b : List Char) (hb : ¬b.head? = some '/') :
    posixJoin UPLOAD_DIR b = "data/".data ++ b := by
  rw [posixJoin, if_neg hb, if_neg (by decide)]
  rfl

theorem head?_append_ne_nil (l l' : List Char) (h : l ≠ []) :
    (l ++ l').head? = l.head? := by
  cases l with
  | nil => exact absurd rfl h
  | cons c tl => rfl

/-- C9: for every job submitted through the upload endpoint, the persisted
record's `filename` equals the server-generated local path handed to the
worker — `data/<file_id><original extension>` — not the client's original
upload filename, and its `result` equals the stringified pipeline result
the task returns as its success value. -/
theorem claim_C9 (filename query ret : List Char) (aenv : AnalyzeEnv)
    (wenv : WorkerEnv) (db : List AnalysisResult)
    (hid1 : aenv.file_id ≠ [])
    (hid2 : ¬aenv.file_id.head? = some '/')
    (hclient : '/' ∉ filename)
    (hok : (process_document
        (posixJoin UPLOAD_DIR (aenv.file_id ++ (splitext filename).2))
        query wenv db).2 = Except.ok ret) :
    (process_document
        (posixJoin UPLOAD_DIR (aenv.file_id ++ (splitext filename).2))
        query wenv db).1 =
      db ++ [{ filename := posixJoin UPLOAD_DIR (aenv.file_id ++ (splitext filename).2),
               query := query, result := ret }] ∧
    wenv.kickoff = KickoffOutcome.ok ret ∧
    posixJoin UPLOAD_DIR (aenv.file_id ++ (splitext filename).2) ≠ filename := by
  obtain ⟨hk, -, hdb⟩ := process_document_ok _ query ret wenv db hok
  refine ⟨hdb, hk, ?_⟩
  have hb : ¬(aenv.file_id ++ (splitext filename).2).head? = some '/' := by
    rw [head?_append_ne_nil _ _ hid1]
    exact hid2
  rw [posixJoin_data _ hb]
  intro hcontr
  apply hclient
  rw [← hcontr]
  simp

/-- Witness for C9 at a concrete upload. -/
theorem claim_C9_witness :
    (process_document
        (posixJoin UPLOAD_DIR ("u123".data ++ (splitext "report.pdf".data).2))
        "q".data
        { kickoff := KickoffOutcome.ok "res".data, commit := CommitOutcome.ok }
        []).1 =
      [] ++ [{ filename := posixJoin UPLOAD_DIR
                 ("u123".data ++ (splitext "report.pdf".data).2),
               query := "q".data, result := "res".data }] ∧
    posixJoin UPLOAD_DIR ("u123".data ++ (splitext "report.pdf".data).2) ≠
      "report.pdf".data := by
  have h := claim_C9 "report.pdf".data "q".data "res".data
    { file_id := "u123".data, save := SaveOutcome.ok, submit := Except.ok "t".data }
    { kickoff := KickoffOutcome.ok "res".data, commit := CommitOutcome.ok }
    [] (by decide) (by decide) (by decide) rfl
  exact ⟨h.1, h.2.2⟩

/-- C6: for every multipart upload with a query, POST /analyze saves the
file to the server-local upload directory under the freshly generated name
`<file_id><original extension>` — distinct generated ids give distinct
paths — submits the job, and returns
`{status: "processing", task_id, message, file_path}`; if saving or
submission raises, it fails with HTTP 500 whose detail surfaces the
exception message. -/
theorem claim_C6 (filename query : List Char) (env : AnalyzeEnv) :
    (∀ tid, env.save = SaveOutcome.ok → env.submit = Except.ok tid →
      analyze_document filename query env =
        Except.ok (Json.obj
          [("status".data, Json.str "processing".data),
           ("task_id".data, Json.str tid),
           ("message".data, Json.str "Analysis started in background".data),
           ("file_path".data, Json.str
             (posixJoin UPLOAD_DIR (env.file_id ++ (splitext filename).2)))])) ∧
    (env.file_id ≠ [] → ¬env.file_id.head? = some '/' →
      posixJoin UPLOAD_DIR (env.file_id ++ (splitext filename).2) =
        "data/".data ++ env.file_id ++ (splitext filename).2) ∧
    (∀ id₂, env.file_id ≠ id₂ →
      "data/".data ++ env.file_id ++ (splitext filename).2 ≠
        "data/".data ++ id₂ ++ (splitext filename).2) ∧
    (∀ e, env.save = SaveOutcome.exn e →
      analyze_document filename query env =
        Except.error (500,
          strOfHTTPException 500 ("File save failed: ".data ++ e)) ∧
      ("File save failed: ".data ++ e) <:+
        strOfHTTPException 500 ("File save failed: ".data ++ e)) ∧
    (∀ e, env.save = SaveOutcome.ok → env.submit = Except.error e →
      analyze_document filename query env = Except.error (500, e)) := by
  refine ⟨?_, ?_, ?_, ?_, ?_⟩
  · intro tid hs hsub
    simp [analyze_document, save_upload_file, hs, hsub]
  · intro h1 h2
    rw [posixJoin_data _ (by rw [head?_append_ne_nil _ _ h1]; exact h2)]
    simp [List.append_assoc]
  · intro id₂ hne hcontr
    apply hne
    have h1 : ("data/".data ++ env.file_id) ++ (splitext filename).2 =
        ("data/".data ++ id₂) ++ (splitext filename).2 := by
      simpa [List.append_assoc] using hcontr
    have h2 : "data/".data ++ env.file_id = "data/".data ++ id₂ :=
      List.append_cancel_right h1
    exact List.append_cancel_left h2
  · intro e hs
    refine ⟨by simp [analyze_document, save_upload_file, hs], ?_⟩
    exact ⟨(toString 500).data ++ ": ".data, by simp [strOfHTTPException]⟩
  · intro e hs hsub
    simp [analyze_document, save_upload_file, hs, hsub]

/-- Witness for C6: a concrete successful upload and both failure modes. -/
theorem claim_C6_witness :
    analyze_document "report.pdf".data "What is the revenue?".data
        { file_id := "u123".data, save := SaveOutcome.ok,
          submit := Except.ok "tid1".data } =
      Except.ok (Json.obj
        [("status".data, Json.str "processing".data),
         ("task_id".data, Json.str "tid1".data),
         ("message".data, Json.str "Analysis started in background".data),
         ("file_path".data, Json.str
           (posixJoin UPLOAD_DIR ("u123".data ++ (splitext "report.pdf".data).2)))]) ∧
    analyze_document "report.pdf".data "q".data
        { file_id := "u123".data, save := SaveOutcome.exn "disk full".data,
          submit := Except.ok "tid1".data } =
      Except.error (500,
        strOfHTTPException 500 ("File save failed: ".data ++ "disk full".data)) ∧
    analyze_document "report.pdf".data "q".data
        { file_id := "u123".data, save := SaveOutcome.ok,
          submit := Except.error "broker unreachable".data } =
      Except.error (500, "broker unreachable".data) :=
  ⟨(claim_C6 "report.pdf".data "What is the revenue?".data
      { file_id := "u123".data, save := SaveOutcome.ok,
        submit := Except.ok "tid1".data }).1 "tid1".data rfl rfl,
   ((claim_C6 "report.pdf".data "q".data
      { file_id := "u123".data, save := SaveOutcome.exn "disk full".data,
        submit := Except.ok "tid1".data }).2.2.2.1 "disk full".data rfl).1,
   (claim_C6 "report.pdf".data "q".data
      { file_id := "u123".data, save := SaveOutcome.ok,
        submit := Except.error "broker unreachable".data }).2.2.2.2
      "broker unreachable".data rfl rfl⟩

/-- C7: pipeline execution is strictly sequential — the crew is configured
with `Process.sequential` and synchronous tasks, and in the modelled
kickoff trace the verify stage (task 1) starts only after the analyze stage
(task 0) has terminated, with no parallel branches: the trace is exactly
start 0, end 0, start 1, end 1. -/
theorem claim_C7 :
    financial_crew.process = CrewProcess.sequential ∧
    financial_crew.tasks = [analyze_financial_document, verify_financial_analysis] ∧
    analyze_financial_document.async_execution = false ∧
    verify_financial_analysis.async_execution = false ∧
    kickoffTrace financial_crew =
      [CrewEvent.taskStart 0, CrewEvent.taskEnd 0,
       CrewEvent.taskStart 1, CrewEvent.taskEnd 1] ∧
    (kickoffTrace financial_crew).indexOf (CrewEvent.taskEnd 0) <
      (kickoffTrace financial_crew).indexOf (CrewEvent.taskStart 1) := by
  refine ⟨rfl, rfl, rfl, rfl, ?_, ?_⟩
  · decide
  · decide

end FinDoc
